import Mathlib

/-!
Shallow embedding of the seajobhub vacancy bot (src/main.py).

The program scans sequential vacancy ids upward from the highest processed
id recorded in a SQLite table, fetches each page, formats it through an
external API, classifies the formatted text into a topic, sends it to a
chat, and records the id as processed.  External collaborators (HTTP
fetch, the formatting API, the Telegram sender) are modelled as oracle
functions supplied in an environment; the SQLite table of processed ids is
modelled as a list of naturals used as a set.
-/

namespace Seajobhub

/-! ### Python string primitives used by choose_topic (main.py line 203) -/

/-- Python whitespace characters recognised by str.strip. -/
def isPySpace (c : Char) : Bool :=
  c == ' ' || c == '\t' || c == '\n' || c == '\r' || c == Char.ofNat 11 || c == Char.ofNat 12

/-- Python str.lstrip on a character list. -/
def lstrip (s : List Char) : List Char := s.dropWhile isPySpace

/-- Python str.rstrip on a character list. -/
def rstrip (s : List Char) : List Char := (s.reverse.dropWhile isPySpace).reverse

/-- Python str.strip on a character list. -/
def pyStrip (s : List Char) : List Char := rstrip (lstrip s)

/-- Python s.split("\n", 1)[0]: the characters before the first newline. -/
def firstLine (s : List Char) : List Char := s.takeWhile (fun c => c != '\n')

/-- Python per-character lower-casing (the keywords involved are ASCII). -/
def pyLower (s : List Char) : List Char := s.map Char.toLower

/-- needle is a leading segment of hay. -/
def startsWith : List Char → List Char → Bool
  | [], _ => true
  | _ :: _, [] => false
  | a :: as, b :: bs => a == b && startsWith as bs

/-- Python substring test needle in hay. -/
def containsSub (needle : List Char) : List Char → Bool
  | [] => startsWith needle []
  | c :: t => startsWith needle (c :: t) || containsSub needle t

/-! ### TOPIC_ID_MAPPING (main.py lines 25-43)

A Python dict iterates in insertion order, so the mapping is embedded as an
association list in the order of the source literal. -/

def TOPIC_ID_MAPPING : List (String × Nat) :=
  [("chief officer", 36),
   ("master", 2),
   ("2nd officer", 44),
   ("3rd officer", 50),
   ("chief engineer", 54),
   ("2nd engineer", 58),
   ("3rd engineer", 62),
   ("4th engineer", 66),
   ("electrical engineer", 70),
   ("bosun", 74),
   ("able seaman", 78),
   ("ordinary seaman", 82),
   ("fitter", 86),
   ("motorman", 90),
   ("wiper", 94),
   ("cook", 98),
   ("steward", 102)]

/-- The for-loop of choose_topic (main.py lines 206-209): return the topic
of the first keyword contained in the lowered first line, else 0. -/
def topicLookup : List (String × Nat) → List Char → Nat
  | [], _ => 0
  | (keyword, topic_id) :: rest, lower_line =>
    if containsSub keyword.data lower_line then topic_id else topicLookup rest lower_line

/-- choose_topic (main.py lines 201-211) on a character list. -/
def choose_topic_list (formatted_text : List Char) : Nat :=
  topicLookup TOPIC_ID_MAPPING (pyLower (pyStrip (firstLine (pyStrip formatted_text))))

/-- choose_topic (main.py lines 201-211). -/
def choose_topic (formatted_text : String) : Nat :=
  choose_topic_list formatted_text.data

/-! ### The processed-id store (main.py lines 54-93)

The SQLite table processed_vacancies has a UNIQUE vacancy_id column; it is
modelled as a list of naturals holding each id at most once when built by
save_processed_id. -/

/-- SELECT MAX(vacancy_id) FROM processed_vacancies (main.py line 72). -/
def selectMaxVacancyId : List Nat → Option Nat
  | [] => none
  | x :: xs =>
    match selectMaxVacancyId xs with
    | none => some x
    | some m => some (max x m)

/-- get_last_processed_id (main.py lines 69-78): the maximum recorded
vacancy id, or the constant 308420 when the table is empty. -/
def get_last_processed_id (store : List Nat) : Nat :=
  match selectMaxVacancyId store with
  | some m => m
  | none => 308420

/-- save_processed_id (main.py lines 81-93): INSERT OR IGNORE on the
UNIQUE vacancy_id column — a duplicate insert leaves the table unchanged
and raises no error. -/
def save_processed_id (store : List Nat) (vacancy_id : Nat) : List Nat :=
  if vacancy_id ∈ store then store else vacancy_id :: store

/-! ### parse_vacancy_page (main.py lines 98-127)

The HTTP request and the HTML extraction are external collaborators.  The
function returns none when the request raises, when the status is not 200,
when the main block is missing, or when the h1 is missing. -/

/-- Outcome of requests.get: either a raised exception or a response with a
status code and a body. -/
inductive HttpResult where
  | err : HttpResult
  | resp : Nat → String → HttpResult

/-- The collaborators of parse_vacancy_page: the HTTP layer and the two
BeautifulSoup extractions. -/
structure PageEnv where
  http : Nat → HttpResult
  findMainBlock : String → Option String
  findH1Text : String → Option String
  blockText : String → String

/-- parse_vacancy_page (main.py lines 98-127). -/
def parse_vacancy_page (pe : PageEnv) (vacancy_id : Nat) : Option String :=
  match pe.http vacancy_id with
  | HttpResult.err => none
  | HttpResult.resp status body =>
    if status ≠ 200 then none
    else
      match pe.findMainBlock body with
      | none => none
      | some main_block =>
        match pe.findH1Text main_block with
        | none => none
        | some title => some ("Job Title: " ++ title ++ "\n" ++ pe.blockText main_block)

/-! ### The scan loop check_new_vacancies (main.py lines 216-280) -/

/-- External collaborators of the scan loop: fetch is the result of
parse_vacancy_page for an id, fmt is format_vacancy_deepseek (error when
the call raises, ok with the stripped text otherwise), and sendOk tells
whether bot.send_message succeeds for (vacancy id, topic, text). -/
structure Env where
  fetch : Nat → Option String
  fmt : String → Except Unit String
  sendOk : Nat → Nat → String → Bool

/-- Observable outcome of a scan: whether the while-loop exited by its own
condition (false means the evaluation fuel ran out), the processed-id
store, the list of send_message invocations (vacancy id, topic, text) in
order, and the counter new_count. -/
structure ScanOutcome where
  completed : Bool
  store : List Nat
  sent : List (Nat × Nat × String)
  new_count : Nat
deriving DecidableEq

/-- max_missing (main.py line 223). -/
def max_missing : Nat := 10

/-- The while-loop of check_new_vacancies (main.py lines 225-277), with
explicit fuel since the Python loop need not terminate when pages keep
being found.  Each iteration mirrors the source: a missing page increments
missing_count without saving; a found page resets missing_count, then a
formatter failure or empty result saves the id and continues; a zero topic
saves the id and continues; otherwise send_message is invoked and —
whether or not it raises (the exception is caught and logged) — the id is
saved and new_count incremented. -/
def scanLoop (env : Env) : Nat → Nat → Nat → Nat → List Nat → List (Nat × Nat × String) → ScanOutcome
  | 0, _, new_count, missing_count, store, sent =>
    if missing_count < max_missing then
      { completed := false, store := store, sent := sent, new_count := new_count }
    else
      { completed := true, store := store, sent := sent, new_count := new_count }
  | fuel + 1, current_id, new_count, missing_count, store, sent =>
    if missing_count < max_missing then
      match env.fetch current_id with
      | none => scanLoop env fuel (current_id + 1) new_count (missing_count + 1) store sent
      | some raw_vacancy =>
        match env.fmt raw_vacancy with
        | Except.error _ =>
          scanLoop env fuel (current_id + 1) new_count 0 (save_processed_id store current_id) sent
        | Except.ok formatted_vacancy =>
          if formatted_vacancy = "" then
            scanLoop env fuel (current_id + 1) new_count 0 (save_processed_id store current_id) sent
          else if choose_topic formatted_vacancy = 0 then
            scanLoop env fuel (current_id + 1) new_count 0 (save_processed_id store current_id) sent
          else if env.sendOk current_id (choose_topic formatted_vacancy) formatted_vacancy then
            scanLoop env fuel (current_id + 1) (new_count + 1) 0 (save_processed_id store current_id)
              (sent ++ [(current_id, choose_topic formatted_vacancy, formatted_vacancy)])
          else
            scanLoop env fuel (current_id + 1) (new_count + 1) 0 (save_processed_id store current_id)
              (sent ++ [(current_id, choose_topic formatted_vacancy, formatted_vacancy)])
    else
      { completed := true, store := store, sent := sent, new_count := new_count }

/-- check_new_vacancies (main.py lines 216-280): start at
get_last_processed_id + 1 with both counters at zero. -/
def check_new_vacancies (env : Env) (fuel : Nat) (store : List Nat)
    (sent : List (Nat × Nat × String)) : ScanOutcome :=
  scanLoop env fuel (get_last_processed_id store + 1) 0 0 store sent

/-- The value returned by check_new_vacancies to its caller: the Python
coroutine has no return statement, so the caller receives None. -/
def check_new_vacancies_return (_ : ScanOutcome) : Unit := ()

/-! ### Helper lemmas about the store -/

theorem mem_save_of_mem {store : List Nat} {v : Nat} (cid : Nat) (h : v ∈ store) :
    v ∈ save_processed_id store cid := by
  unfold save_processed_id
  split
  · exact h
  · exact List.mem_cons_of_mem _ h

theorem mem_save_self (store : List Nat) (cid : Nat) : cid ∈ save_processed_id store cid := by
  unfold save_processed_id
  split
  · assumption
  · exact List.mem_cons_self _ _

theorem mem_save_cases {store : List Nat} {v cid : Nat} (h : v ∈ save_processed_id store cid) :
    v ∈ store ∨ v = cid := by
  unfold save_processed_id at h
  split at h
  · exact Or.inl h
  · rcases List.mem_cons.mp h with h | h
    · exact Or.inr h
    · exact Or.inl h

theorem le_selectMax {store : List Nat} {v : Nat} (h : v ∈ store) :
    ∃ m, selectMaxVacancyId store = some m ∧ v ≤ m := by
  induction store with
  | nil => cases h
  | cons x xs ih =>
    rcases List.mem_cons.mp h with rfl | hx
    · cases hm : selectMaxVacancyId xs with
      | none => exact ⟨v, by simp [selectMaxVacancyId, hm], Nat.le_refl v⟩
      | some m => exact ⟨max v m, by simp [selectMaxVacancyId, hm], Nat.le_max_left v m⟩
    · obtain ⟨m, hm, hv⟩ := ih hx
      exact ⟨max x m, by simp [selectMaxVacancyId, hm], Nat.le_trans hv (Nat.le_max_right x m)⟩

theorem le_get_last_processed_id {store : List Nat} {v : Nat} (h : v ∈ store) :
    v ≤ get_last_processed_id store := by
  obtain ⟨m, hm, hv⟩ := le_selectMax h
  unfold get_last_processed_id
  rw [hm]
  exact hv

/-! ### Helper lemmas about the scan loop -/

theorem scanLoop_succ (env : Env) (fuel current_id new_count missing_count : Nat)
    (store : List Nat) (sent : List (Nat × Nat × String)) :
    scanLoop env (fuel + 1) current_id new_count missing_count store sent =
      if missing_count < max_missing then
        match env.fetch current_id with
        | none => scanLoop env fuel (current_id + 1) new_count (missing_count + 1) store sent
        | some raw_vacancy =>
          match env.fmt raw_vacancy with
          | Except.error _ =>
            scanLoop env fuel (current_id + 1) new_count 0 (save_processed_id store current_id) sent
          | Except.ok formatted_vacancy =>
            if formatted_vacancy = "" then
              scanLoop env fuel (current_id + 1) new_count 0 (save_processed_id store current_id) sent
            else if choose_topic formatted_vacancy = 0 then
              scanLoop env fuel (current_id + 1) new_count 0 (save_processed_id store current_id) sent
            else if env.sendOk current_id (choose_topic formatted_vacancy) formatted_vacancy then
              scanLoop env fuel (current_id + 1) (new_count + 1) 0 (save_processed_id store current_id)
                (sent ++ [(current_id, choose_topic formatted_vacancy, formatted_vacancy)])
            else
              scanLoop env fuel (current_id + 1) (new_count + 1) 0 (save_processed_id store current_id)
                (sent ++ [(current_id, choose_topic formatted_vacancy, formatted_vacancy)])
      else
        { completed := true, store := store, sent := sent, new_count := new_count } := rfl

theorem scanLoop_exit (env : Env) (fuel current_id new_count missing_count : Nat)
    (store : List Nat) (sent : List (Nat × Nat × String))
    (h : max_missing ≤ missing_count) :
    scanLoop env fuel current_id new_count missing_count store sent =
      { completed := true, store := store, sent := sent, new_count := new_count } := by
  have hlt : ¬ missing_count < max_missing := Nat.not_lt.mpr h
  cases fuel with
  | zero => unfold scanLoop; rw [if_neg hlt]
  | succ fuel => rw [scanLoop_succ, if_neg hlt]

/-- Every live iteration of the loop performs one of six transitions; all
of them advance the id by one, grow the store by at most the current id,
grow the sent list by at most one entry for the current id, and keep
new_count in step with the sent list. -/
theorem scanLoop_step_exists (env : Env) (fuel current_id new_count missing_count : Nat)
    (store : List Nat) (sent : List (Nat × Nat × String))
    (hmc : missing_count < max_missing) :
    ∃ nc2 mc2 store2 sent2,
      scanLoop env (fuel + 1) current_id new_count missing_count store sent =
        scanLoop env fuel (current_id + 1) nc2 mc2 store2 sent2 ∧
      (∀ v, v ∈ store → v ∈ store2) ∧
      (∀ v, v ∈ store2 → v ∈ store ∨ v = current_id) ∧
      (∀ e, e ∈ sent2 → e ∈ sent ∨ e.1 = current_id) ∧
      (∀ e, e ∈ sent → e ∈ sent2) ∧
      nc2 + sent.length = new_count + sent2.length := by
  rw [scanLoop_succ, if_pos hmc]
  cases hf : env.fetch current_id with
  | none =>
    exact ⟨new_count, missing_count + 1, store, sent, rfl,
      fun v hv => hv, fun v hv => Or.inl hv, fun e he => Or.inl he, fun e he => he, rfl⟩
  | some raw_vacancy =>
    dsimp only
    have hsave₁ : ∀ v, v ∈ store → v ∈ save_processed_id store current_id :=
      fun v hv => mem_save_of_mem current_id hv
    have hsave₂ : ∀ v, v ∈ save_processed_id store current_id → v ∈ store ∨ v = current_id :=
      fun v hv => mem_save_cases hv
    cases hfmt : env.fmt raw_vacancy with
    | error u =>
      exact ⟨new_count, 0, save_processed_id store current_id, sent, rfl,
        hsave₁, hsave₂, fun e he => Or.inl he, fun e he => he, rfl⟩
    | ok formatted_vacancy =>
      dsimp only
      by_cases he : formatted_vacancy = ""
      · rw [if_pos he]
        exact ⟨new_count, 0, save_processed_id store current_id, sent, rfl,
          hsave₁, hsave₂, fun e he => Or.inl he, fun e he => he, rfl⟩
      · rw [if_neg he]
        by_cases ht : choose_topic formatted_vacancy = 0
        · rw [if_pos ht]
          exact ⟨new_count, 0, save_processed_id store current_id, sent, rfl,
            hsave₁, hsave₂, fun e he => Or.inl he, fun e he => he, rfl⟩
        · rw [if_neg ht]
          have hsent : ∀ e, e ∈ sent ++ [(current_id, choose_topic formatted_vacancy, formatted_vacancy)] →
              e ∈ sent ∨ e.1 = current_id := by
            intro e hmem
            rcases List.mem_append.mp hmem with h | h
            · exact Or.inl h
            · rcases List.mem_singleton.mp h with rfl
              exact Or.inr rfl
          have hlen : new_count + 1 + sent.length =
              new_count + (sent ++ [(current_id, choose_topic formatted_vacancy, formatted_vacancy)]).length := by
            rw [List.length_append]
            simp
            omega
          by_cases hs : env.sendOk current_id (choose_topic formatted_vacancy) formatted_vacancy
          · rw [if_pos hs]
            exact ⟨new_count + 1, 0, save_processed_id store current_id,
              sent ++ [(current_id, choose_topic formatted_vacancy, formatted_vacancy)], rfl,
              hsave₁, hsave₂, hsent, fun e hmem => List.mem_append_left _ hmem, hlen⟩
          · rw [if_neg hs]
            exact ⟨new_count + 1, 0, save_processed_id store current_id,
              sent ++ [(current_id, choose_topic formatted_vacancy, formatted_vacancy)], rfl,
              hsave₁, hsave₂, hsent, fun e hmem => List.mem_append_left _ hmem, hlen⟩

/-- The store only grows during a scan. -/
theorem scanLoop_store_mono (env : Env) :
    ∀ (fuel current_id new_count missing_count : Nat) (store : List Nat)
      (sent : List (Nat × Nat × String)) (v : Nat), v ∈ store →
      v ∈ (scanLoop env fuel current_id new_count missing_count store sent).store := by
  intro fuel
  induction fuel with
  | zero =>
    intro current_id new_count missing_count store sent v hv
    unfold scanLoop
    split <;> exact hv
  | succ fuel ih =>
    intro current_id new_count missing_count store sent v hv
    by_cases hmc : missing_count < max_missing
    · obtain ⟨nc2, mc2, store2, sent2, heq, hmono, -, -, -, -⟩ :=
        scanLoop_step_exists env fuel current_id new_count missing_count store sent hmc
      rw [heq]
      exact ih _ nc2 mc2 store2 sent2 v (hmono v hv)
    · rw [scanLoop_exit env _ _ _ _ _ _ (Nat.not_lt.mp hmc)]
      exact hv

/-- Any id entering the store during a scan is at least the starting id. -/
theorem scanLoop_store_new (env : Env) :
    ∀ (fuel current_id new_count missing_count : Nat) (store : List Nat)
      (sent : List (Nat × Nat × String)) (v : Nat),
      v ∈ (scanLoop env fuel current_id new_count missing_count store sent).store →
      v ∈ store ∨ current_id ≤ v := by
  intro fuel
  induction fuel with
  | zero =>
    intro current_id new_count missing_count store sent v hv
    unfold scanLoop at hv
    split at hv <;> exact Or.inl hv
  | succ fuel ih =>
    intro current_id new_count missing_count store sent v hv
    by_cases hmc : missing_count < max_missing
    · obtain ⟨nc2, mc2, store2, sent2, heq, -, hnew, -, -, -⟩ :=
        scanLoop_step_exists env fuel current_id new_count missing_count store sent hmc
      rw [heq] at hv
      rcases ih _ nc2 mc2 store2 sent2 v hv with h | h
      · rcases hnew v h with h | rfl
        · exact Or.inl h
        · exact Or.inr (Nat.le_refl v)
      · exact Or.inr (by omega)
    · rw [scanLoop_exit env _ _ _ _ _ _ (Nat.not_lt.mp hmc)] at hv
      exact Or.inl hv

/-- Every send recorded during a scan is either pre-existing or addressed
to an id at least the starting id. -/
theorem scanLoop_sent_mem (env : Env) :
    ∀ (fuel current_id new_count missing_count : Nat) (store : List Nat)
      (sent : List (Nat × Nat × String)) (e : Nat × Nat × String),
      e ∈ (scanLoop env fuel current_id new_count missing_count store sent).sent →
      e ∈ sent ∨ current_id ≤ e.1 := by
  intro fuel
  induction fuel with
  | zero =>
    intro current_id new_count missing_count store sent e hv
    unfold scanLoop at hv
    split at hv <;> exact Or.inl hv
  | succ fuel ih =>
    intro current_id new_count missing_count store sent e hv
    by_cases hmc : missing_count < max_missing
    · obtain ⟨nc2, mc2, store2, sent2, heq, -, -, hse, -, -⟩ :=
        scanLoop_step_exists env fuel current_id new_count missing_count store sent hmc
      rw [heq] at hv
      rcases ih _ nc2 mc2 store2 sent2 e hv with h | h
      · rcases hse e h with h | h
        · exact Or.inl h
        · exact Or.inr (Nat.le_of_eq h.symm)
      · exact Or.inr (by omega)
    · rw [scanLoop_exit env _ _ _ _ _ _ (Nat.not_lt.mp hmc)] at hv
      exact Or.inl hv

/-- new_count advances exactly with the sent list. -/
theorem scanLoop_count (env : Env) :
    ∀ (fuel current_id new_count missing_count : Nat) (store : List Nat)
      (sent : List (Nat × Nat × String)),
      (scanLoop env fuel current_id new_count missing_count store sent).new_count + sent.length =
        new_count + (scanLoop env fuel current_id new_count missing_count store sent).sent.length := by
  intro fuel
  induction fuel with
  | zero =>
    intro current_id new_count missing_count store sent
    unfold scanLoop
    split <;> rfl
  | succ fuel ih =>
    intro current_id new_count missing_count store sent
    by_cases hmc : missing_count < max_missing
    · obtain ⟨nc2, mc2, store2, sent2, heq, -, -, -, -, hlen⟩ :=
        scanLoop_step_exists env fuel current_id new_count missing_count store sent hmc
      rw [heq]
      have := ih (current_id + 1) nc2 mc2 store2 sent2
      omega
    · rw [scanLoop_exit env _ _ _ _ _ _ (Nat.not_lt.mp hmc)]

/-- A streak of misses long enough to exhaust the bound ends the scan with
nothing changed. -/
theorem scanLoop_all_miss (env : Env) :
    ∀ (fuel missing_count current_id new_count : Nat) (store : List Nat)
      (sent : List (Nat × Nat × String)),
      max_missing - missing_count ≤ fuel →
      (∀ i, i < max_missing - missing_count → env.fetch (current_id + i) = none) →
      scanLoop env fuel current_id new_count missing_count store sent =
        { completed := true, store := store, sent := sent, new_count := new_count } := by
  intro fuel
  induction fuel with
  | zero =>
    intro missing_count current_id new_count store sent hfuel hmiss
    exact scanLoop_exit env 0 _ _ _ _ _ (by omega)
  | succ fuel ih =>
    intro missing_count current_id new_count store sent hfuel hmiss
    by_cases hmc : missing_count < max_missing
    · have h0 : env.fetch current_id = none := by
        have := hmiss 0 (by omega)
        rwa [Nat.add_zero] at this
      rw [scanLoop_succ, if_pos hmc, h0]
      apply ih (missing_count + 1) (current_id + 1) new_count store sent (by omega)
      intro i hi
      have h1 : current_id + 1 + i = current_id + (i + 1) := by omega
      rw [h1]
      exact hmiss (i + 1) (by omega)
    · exact scanLoop_exit env _ _ _ _ _ _ (Nat.not_lt.mp hmc)

/-! ### Helper lemmas about the classifier strings -/

theorem dropWhile_append_eq (p : Char → Bool) :
    ∀ x y : List Char, List.dropWhile p (x ++ y) =
      if (List.dropWhile p x).isEmpty then List.dropWhile p y else List.dropWhile p x ++ y
  | [], y => by simp [List.dropWhile]
  | c :: t, y => by
    cases hc : p c with
    | true => simpa [List.dropWhile, hc] using dropWhile_append_eq p t y
    | false => simp [List.dropWhile, hc]

theorem takeWhile_append_eq (p : Char → Bool) :
    ∀ x y : List Char, (∀ c, c ∈ x → p c = true) →
      List.takeWhile p (x ++ y) = x ++ List.takeWhile p y
  | [], y, _ => rfl
  | c :: t, y, h => by
    have hc : p c = true := h c (List.mem_cons_self c t)
    simpa [List.takeWhile, hc] using takeWhile_append_eq p t y (fun d hd => h d (List.mem_cons_of_mem c hd))

theorem lstrip_append_of_keep {a : List Char} (s : List Char)
    (ha : List.dropWhile isPySpace a = a) (hne : a.isEmpty = false) :
    lstrip (a ++ s) = a ++ s := by
  unfold lstrip
  rw [dropWhile_append_eq, ha, hne]
  simp

theorem rstrip_append_of_keep {a : List Char} (s : List Char)
    (ha : List.dropWhile isPySpace a.reverse = a.reverse) :
    ∃ t, rstrip (a ++ s) = a ++ t := by
  unfold rstrip
  rw [List.reverse_append, dropWhile_append_eq]
  by_cases h : (List.dropWhile isPySpace s.reverse).isEmpty
  · rw [if_pos h, ha, List.reverse_reverse]
    exact ⟨[], (List.append_nil a).symm⟩
  · rw [if_neg h, List.reverse_append, List.reverse_reverse]
    exact ⟨(List.dropWhile isPySpace s.reverse).reverse, rfl⟩

theorem pyStrip_append_of_keep {a : List Char} (s : List Char)
    (ha : List.dropWhile isPySpace a = a) (hne : a.isEmpty = false)
    (har : List.dropWhile isPySpace a.reverse = a.reverse) :
    ∃ t, pyStrip (a ++ s) = a ++ t := by
  unfold pyStrip
  rw [lstrip_append_of_keep s ha hne]
  exact rstrip_append_of_keep s har

theorem startsWith_self_append : ∀ n t : List Char, startsWith n (n ++ t) = true
  | [], _ => rfl
  | c :: cs, t => by simp [startsWith, startsWith_self_append cs t]

theorem containsSub_of_startsWith : ∀ {n h : List Char}, startsWith n h = true → containsSub n h = true
  | n, [], hs => hs
  | n, c :: t, hs => by simp [containsSub, hs]

theorem topicLookup_first {keyword : String} {topic_id : Nat} {rest : List (String × Nat)}
    {line : List Char} (h : containsSub keyword.data line = true) :
    topicLookup ((keyword, topic_id) :: rest) line = topic_id := by
  unfold topicLookup
  rw [if_pos h]

theorem topicLookup_none : ∀ (L : List (String × Nat)) (line : List Char),
    (∀ p, p ∈ L → containsSub p.1.data line = false) → topicLookup L line = 0
  | [], _, _ => rfl
  | (keyword, topic_id) :: rest, line, h => by
    unfold topicLookup
    rw [if_neg (by simp [h (keyword, topic_id) (List.mem_cons_self _ _)])]
    exact topicLookup_none rest line (fun p hp => h p (List.mem_cons_of_mem _ hp))

theorem topicLookup_cases : ∀ (L : List (String × Nat)) (line : List Char),
    topicLookup L line = 0 ∨ ∃ p, p ∈ L ∧ topicLookup L line = p.2
  | [], _ => Or.inl rfl
  | (keyword, topic_id) :: rest, line => by
    unfold topicLookup
    by_cases h : containsSub keyword.data line = true
    · rw [if_pos h]
      exact Or.inr ⟨(keyword, topic_id), List.mem_cons_self _ _, rfl⟩
    · rw [if_neg h]
      rcases topicLookup_cases rest line with h0 | ⟨p, hp, he⟩
      · exact Or.inl h0
      · exact Or.inr ⟨p, List.mem_cons_of_mem _ hp, he⟩

/-- The lowered, stripped first line of any text starting with the literal
title keeps the lowered title as a leading segment. -/
theorem chief_line_shape (s : List Char) :
    ∃ t, pyLower (pyStrip (firstLine (pyStrip ("Chief Officer on Bulk Carrier".data ++ s)))) =
      "chief officer on bulk carrier".data ++ t := by
  obtain ⟨t1, h1⟩ := pyStrip_append_of_keep (a := "Chief Officer on Bulk Carrier".data) s
    (by decide) (by decide) (by decide)
  rw [h1]
  unfold firstLine
  rw [takeWhile_append_eq _ _ _ (by decide)]
  obtain ⟨t2, h2⟩ := pyStrip_append_of_keep (a := "Chief Officer on Bulk Carrier".data)
    (List.takeWhile (fun c => c != '\n') t1) (by decide) (by decide) (by decide)
  rw [h2]
  unfold pyLower
  rw [List.map_append]
  exact ⟨List.map Char.toLower t2,
    by rw [show List.map Char.toLower "Chief Officer on Bulk Carrier".data =
      "chief officer on bulk carrier".data from by decide]⟩

/-! ### Concrete environments used in witnesses and counterexamples -/

/-- An environment whose fetch always reports not present. -/
def envAllMiss : Env :=
  { fetch := fun _ => none, fmt := fun _ => Except.error (), sendOk := fun _ _ _ => true }

/-- An environment delivering exactly one vacancy, at id 308421. -/
def envOneHit : Env :=
  { fetch := fun i => if i == 308421 then some "raw vacancy page" else none,
    fmt := fun _ => Except.ok "Master on Tanker\nJoining Date: soon",
    sendOk := fun _ _ _ => true }

/-- An environment whose formatter always raises. -/
def envFmtErr : Env :=
  { fetch := fun _ => some "raw vacancy page", fmt := fun _ => Except.error (),
    sendOk := fun _ _ _ => true }

/-- An environment whose send_message always raises. -/
def envSendFail : Env :=
  { fetch := fun _ => some "raw vacancy page",
    fmt := fun _ => Except.ok "Master on Tanker\nJoining Date: soon",
    sendOk := fun _ _ _ => false }

/-- A page environment whose HTTP layer always raises. -/
def pageEnvErr : PageEnv :=
  { http := fun _ => HttpResult.err, findMainBlock := fun _ => none,
    findH1Text := fun _ => none, blockText := fun s => s }

/-- A page environment answering 404 to every request. -/
def pageEnv404 : PageEnv :=
  { http := fun _ => HttpResult.resp 404 "not found", findMainBlock := fun _ => some "b",
    findH1Text := fun _ => some "t", blockText := fun s => s }

/-! ### Claims -/

/-- C6: choose_topic lower-cases the stripped first line of the formatted
text and scans TOPIC_ID_MAPPING in its literal order, returning the
destination of the first keyword contained as a substring, and 0 when no
keyword is contained.  In particular every text beginning with the literal
"Chief Officer on Bulk Carrier" is routed to destination 36, the entry of
the keyword "chief officer". -/
theorem choose_topic_classification :
    (∀ s : List Char, choose_topic_list ("Chief Officer on Bulk Carrier".data ++ s) = 36) ∧
    (∀ s : String, (∀ p, p ∈ TOPIC_ID_MAPPING →
        containsSub p.1.data (pyLower (pyStrip (firstLine (pyStrip s.data)))) = false) →
      choose_topic s = 0) := by
  constructor
  · intro s
    obtain ⟨t, ht⟩ := chief_line_shape s
    unfold choose_topic_list
    rw [ht]
    have hstart : startsWith "chief officer".data ("chief officer on bulk carrier".data ++ t) = true := by
      rw [show "chief officer on bulk carrier".data =
        "chief officer".data ++ " on bulk carrier".data from by decide, List.append_assoc]
      exact startsWith_self_append _ _
    exact topicLookup_first (containsSub_of_startsWith hstart)
  · intro s h
    exact topicLookup_none TOPIC_ID_MAPPING _ h

/-- Witness for C6 at concrete inputs. -/
theorem choose_topic_classification_witness :
    choose_topic_list ("Chief Officer on Bulk Carrier".data ++ " (DWT 80000)".data) = 36 ∧
    choose_topic "an unrecognised role on a boat" = 0 :=
  ⟨choose_topic_classification.1 " (DWT 80000)".data,
   choose_topic_classification.2 "an unrecognised role on a boat" (by decide)⟩

/-- C10: choose_topic is total and returns either the destination of some
mapping entry or the sentinel 0, and 0 is the destination of no entry:
every destination in TOPIC_ID_MAPPING is at least 2. -/
theorem choose_topic_total_sentinel :
    (∀ s : String, choose_topic s = 0 ∨ ∃ p, p ∈ TOPIC_ID_MAPPING ∧ choose_topic s = p.2) ∧
    (∀ p, p ∈ TOPIC_ID_MAPPING → 2 ≤ p.2) := by
  constructor
  · intro s
    exact topicLookup_cases TOPIC_ID_MAPPING _
  · intro p hp
    fin_cases hp <;> simp

/-- Witness for C10 at concrete inputs. -/
theorem choose_topic_total_sentinel_witness :
    (choose_topic "" = 0 ∨ ∃ p, p ∈ TOPIC_ID_MAPPING ∧ choose_topic "" = p.2) ∧
    2 ≤ (("master", 2) : String × Nat).2 :=
  ⟨choose_topic_total_sentinel.1 "",
   choose_topic_total_sentinel.2 ("master", 2) (by decide)⟩

/-- C8: save_processed_id is an idempotent insert — saving the same id
twice leaves the store exactly as saving it once, and saving an id already
present changes nothing (the duplicate is silently absorbed, mirroring
INSERT OR IGNORE on the UNIQUE column). -/
theorem save_processed_id_idempotent :
    (∀ (store : List Nat) (x : Nat),
      save_processed_id (save_processed_id store x) x = save_processed_id store x) ∧
    (∀ (store : List Nat) (x : Nat), x ∈ store → save_processed_id store x = store) := by
  have habsorb : ∀ (store : List Nat) (x : Nat), x ∈ store → save_processed_id store x = store := by
    intro store x hx
    unfold save_processed_id
    rw [if_pos hx]
  exact ⟨fun store x => habsorb _ x (mem_save_self store x), habsorb⟩

/-- Witness for C8 at a concrete store. -/
theorem save_processed_id_idempotent_witness :
    save_processed_id (save_processed_id [7, 3] 3) 3 = save_processed_id [7, 3] 3 ∧
    save_processed_id [7, 3] 3 = [7, 3] :=
  ⟨save_processed_id_idempotent.1 [7, 3] 3,
   save_processed_id_idempotent.2 [7, 3] 3 (by decide)⟩

/-- C1: at-most-once delivery — an id already recorded in the store is
never sent again by a later scan, because the scan starts above the
maximum recorded id and only visits increasing ids. -/
theorem at_most_once_delivery (env : Env) (fuel : Nat) (store : List Nat) (v : Nat)
    (hv : v ∈ store) (topic : Nat) (txt : String) :
    (v, topic, txt) ∉ (check_new_vacancies env fuel store []).sent := by
  intro hmem
  rcases scanLoop_sent_mem env fuel (get_last_processed_id store + 1) 0 0 store []
      (v, topic, txt) hmem with h | h
  · exact List.not_mem_nil _ h
  · have hle := le_get_last_processed_id hv
    have hfst : (v, topic, txt).1 = v := rfl
    rw [hfst] at h
    omega

/-- Witness for C1: id 5 is recorded, and no scan resends it. -/
theorem at_most_once_delivery_witness :
    (5, 2, "Master on Tanker") ∉ (check_new_vacancies envOneHit 12 [5] []).sent :=
  at_most_once_delivery envOneHit 12 [5] 5 (by decide) 2 "Master on Tanker"

/-- C2: if the fetcher reports not present for the 10 consecutive ids
starting at the first candidate, the scan terminates having delivered
nothing and marked nothing; and in general the loop stops as soon as
missing_count reaches 10. -/
theorem miss_streak_termination (env : Env) (fuel : Nat) (store : List Nat)
    (sent : List (Nat × Nat × String)) (hfuel : 10 ≤ fuel)
    (hmiss : ∀ i, i < 10 → env.fetch (get_last_processed_id store + 1 + i) = none) :
    check_new_vacancies env fuel store sent =
      { completed := true, store := store, sent := sent, new_count := 0 } ∧
    (∀ (fuel2 current_id new_count missing_count : Nat) (store2 : List Nat)
        (sent2 : List (Nat × Nat × String)), 10 ≤ missing_count →
      scanLoop env fuel2 current_id new_count missing_count store2 sent2 =
        { completed := true, store := store2, sent := sent2, new_count := new_count }) := by
  constructor
  · unfold check_new_vacancies
    apply scanLoop_all_miss env fuel 0 (get_last_processed_id store + 1) 0 store sent
    · show max_missing - 0 ≤ fuel
      unfold max_missing
      omega
    · intro i hi
      apply hmiss i
      revert hi
      show i < max_missing - 0 → i < 10
      unfold max_missing
      omega
  · intro fuel2 current_id new_count missing_count store2 sent2 hmc
    apply scanLoop_exit
    unfold max_missing
    omega

/-- Witness for C2: with an all-missing fetcher and fuel 10 the scan ends
cleanly with nothing recorded. -/
theorem miss_streak_termination_witness :
    check_new_vacancies envAllMiss 10 [] [] =
      { completed := true, store := [], sent := [], new_count := 0 } :=
  (miss_streak_termination envAllMiss 10 [] [] (Nat.le_refl 10) (fun _ _ => rfl)).1

/-- C3: with an empty store the first candidate id is 308421 (the code
keeps the constant 308420 as a pseudo last-processed id, so the scan
starts at its successor), and in the end-to-end scenario where that id is
fetched, formatted to a Master-on-Tanker text and delivered, the sink
records the call with destination 2 and the store afterwards has that id
as its processed maximum. -/
theorem end_to_end_fallback_scenario :
    get_last_processed_id [] = 308420 ∧
    get_last_processed_id [] + 1 = 308421 ∧
    check_new_vacancies envOneHit 11 [] [] =
      { completed := true, store := [308421],
        sent := [(308421, 2, "Master on Tanker\nJoining Date: soon")], new_count := 1 } ∧
    choose_topic "Master on Tanker\nJoining Date: soon" = 2 ∧
    308421 ∈ (check_new_vacancies envOneHit 11 [] []).store ∧
    get_last_processed_id (check_new_vacancies envOneHit 11 [] []).store = 308421 := by
  refine ⟨rfl, rfl, by decide, by decide, by decide, by decide⟩

/-- C4: a fetch reporting not present — which parse_vacancy_page produces
both for a raised request and for a non-200 status — makes the scan
increment missing_count, leave the store untouched, and advance to the
next id. -/
theorem missing_page_step :
    (∀ (pe : PageEnv) (vacancy_id : Nat), pe.http vacancy_id = HttpResult.err →
      parse_vacancy_page pe vacancy_id = none) ∧
    (∀ (pe : PageEnv) (vacancy_id status : Nat) (body : String),
      pe.http vacancy_id = HttpResult.resp status body → status ≠ 200 →
      parse_vacancy_page pe vacancy_id = none) ∧
    (∀ (env : Env) (fuel current_id new_count missing_count : Nat) (store : List Nat)
        (sent : List (Nat × Nat × String)),
      missing_count < max_missing → env.fetch current_id = none →
      scanLoop env (fuel + 1) current_id new_count missing_count store sent =
        scanLoop env fuel (current_id + 1) new_count (missing_count + 1) store sent) := by
  refine ⟨?_, ?_, ?_⟩
  · intro pe vacancy_id h
    unfold parse_vacancy_page
    rw [h]
  · intro pe vacancy_id status body h hs
    unfold parse_vacancy_page
    rw [h]
    dsimp only
    rw [if_pos hs]
  · intro env fuel current_id new_count missing_count store sent hmc hf
    rw [scanLoop_succ, if_pos hmc, hf]

/-- Witness for C4 at concrete inputs. -/
theorem missing_page_step_witness :
    parse_vacancy_page pageEnvErr 308421 = none ∧
    parse_vacancy_page pageEnv404 308421 = none ∧
    scanLoop envAllMiss 1 100 0 0 [] [] = scanLoop envAllMiss 0 101 0 1 [] [] :=
  ⟨missing_page_step.1 pageEnvErr 308421 rfl,
   missing_page_step.2.1 pageEnv404 308421 404 "not found" rfl (by decide),
   missing_page_step.2.2 envAllMiss 0 100 0 0 [] [] (by decide) rfl⟩

/-- C5: when a page is fetched but the formatter raises or returns the
empty string, the scan saves the id, resets missing_count, advances, and
the delivery sink is never invoked for that id during the scan. -/
theorem formatter_failure_step (env : Env) (fuel current_id new_count missing_count : Nat)
    (store : List Nat) (sent : List (Nat × Nat × String)) (raw_vacancy : String)
    (hmc : missing_count < max_missing) (hf : env.fetch current_id = some raw_vacancy)
    (hfmt : env.fmt raw_vacancy = Except.error () ∨ env.fmt raw_vacancy = Except.ok "") :
    scanLoop env (fuel + 1) current_id new_count missing_count store sent =
      scanLoop env fuel (current_id + 1) new_count 0 (save_processed_id store current_id) sent ∧
    current_id ∈ (scanLoop env (fuel + 1) current_id new_count missing_count store sent).store ∧
    (∀ topic txt,
      (current_id, topic, txt) ∈ (scanLoop env (fuel + 1) current_id new_count missing_count store sent).sent →
      (current_id, topic, txt) ∈ sent) := by
  have heq : scanLoop env (fuel + 1) current_id new_count missing_count store sent =
      scanLoop env fuel (current_id + 1) new_count 0 (save_processed_id store current_id) sent := by
    rw [scanLoop_succ, if_pos hmc, hf]
    dsimp only
    rcases hfmt with h | h
    · rw [h]
    · rw [h]
      dsimp only
      rw [if_pos rfl]
  refine ⟨heq, ?_, ?_⟩
  · rw [heq]
    exact scanLoop_store_mono env fuel _ _ _ _ _ current_id (mem_save_self store current_id)
  · intro topic txt hmem
    rw [heq] at hmem
    rcases scanLoop_sent_mem env fuel _ _ _ _ _ _ hmem with h | h
    · exact h
    · exfalso
      have hfst : (current_id, topic, txt).1 = current_id := rfl
      rw [hfst] at h
      omega

/-- Witness for C5: formatter failure at id 100 saves the id and sends
nothing. -/
theorem formatter_failure_step_witness :
    scanLoop envFmtErr 1 100 0 0 [] [] =
      scanLoop envFmtErr 0 101 0 0 (save_processed_id [] 100) [] ∧
    100 ∈ (scanLoop envFmtErr 1 100 0 0 [] []).store ∧
    (∀ topic txt, (100, topic, txt) ∈ (scanLoop envFmtErr 1 100 0 0 [] []).sent →
      (100, topic, txt) ∈ ([] : List (Nat × Nat × String))) :=
  formatter_failure_step envFmtErr 0 100 0 0 [] [] "raw vacancy page" (by decide) rfl (Or.inl rfl)

/-- C7: a failing send_message does not stop the id from being recorded —
the iteration proceeds exactly as on success: the sink call is attempted,
the id is saved, new_count incremented, and the loop advances. -/
theorem delivery_failure_still_marks (env : Env) (fuel current_id new_count missing_count : Nat)
    (store : List Nat) (sent : List (Nat × Nat × String)) (raw_vacancy formatted_vacancy : String)
    (hmc : missing_count < max_missing) (hf : env.fetch current_id = some raw_vacancy)
    (hfmt : env.fmt raw_vacancy = Except.ok formatted_vacancy) (hne : formatted_vacancy ≠ "")
    (ht : choose_topic formatted_vacancy ≠ 0)
    (hsend : env.sendOk current_id (choose_topic formatted_vacancy) formatted_vacancy = false) :
    scanLoop env (fuel + 1) current_id new_count missing_count store sent =
      scanLoop env fuel (current_id + 1) (new_count + 1) 0 (save_processed_id store current_id)
        (sent ++ [(current_id, choose_topic formatted_vacancy, formatted_vacancy)]) ∧
    current_id ∈ (scanLoop env (fuel + 1) current_id new_count missing_count store sent).store := by
  have heq : scanLoop env (fuel + 1) current_id new_count missing_count store sent =
      scanLoop env fuel (current_id + 1) (new_count + 1) 0 (save_processed_id store current_id)
        (sent ++ [(current_id, choose_topic formatted_vacancy, formatted_vacancy)]) := by
    rw [scanLoop_succ, if_pos hmc, hf]
    dsimp only
    rw [hfmt]
    dsimp only
    rw [if_neg hne, if_neg ht, if_neg (by simp [hsend])]
  refine ⟨heq, ?_⟩
  rw [heq]
  exact scanLoop_store_mono env fuel _ _ _ _ _ current_id (mem_save_self store current_id)

/-- Witness for C7: a failing sender at id 100 still records the id. -/
theorem delivery_failure_still_marks_witness :
    scanLoop envSendFail 1 100 0 0 [] [] =
      scanLoop envSendFail 0 101 1 0 (save_processed_id [] 100)
        ([] ++ [(100, choose_topic "Master on Tanker\nJoining Date: soon",
          "Master on Tanker\nJoining Date: soon")]) ∧
    100 ∈ (scanLoop envSendFail 1 100 0 0 [] []).store :=
  delivery_failure_still_marks envSendFail 0 100 0 0 [] [] "raw vacancy page"
    "Master on Tanker\nJoining Date: soon" (by decide) rfl rfl (by decide) (by decide) rfl

/-- C9 corrected: at the end of the scan loop the single counter new_count
equals the number of delivery invocations made during the invocation. -/
theorem scan_reports_single_delivered_count (env : Env) (fuel : Nat) (store : List Nat) :
    (check_new_vacancies env fuel store []).new_count =
      (check_new_vacancies env fuel store []).sent.length := by
  have h := scanLoop_count env fuel (get_last_processed_id store + 1) 0 0 store []
  unfold check_new_vacancies
  simpa using h

/-- C9 counterexample: the value check_new_vacancies hands back to its
caller is None, so no reading of the returned value can recover even the
delivered count, let alone an {attempted, delivered} pair: two runs with
different delivered counts return the same value. -/
theorem scan_return_carries_no_counts :
    ¬ ∃ g : Unit → Nat, ∀ (env : Env) (fuel : Nat) (store : List Nat),
      g (check_new_vacancies_return (check_new_vacancies env fuel store [])) =
        (check_new_vacancies env fuel store []).new_count := by
  rintro ⟨g, hg⟩
  have h0 := hg envAllMiss 10 []
  have h1 := hg envOneHit 11 []
  have e0 : (check_new_vacancies envAllMiss 10 [] []).new_count = 0 := by decide
  have e1 : (check_new_vacancies envOneHit 11 [] []).new_count = 1 := by decide
  have r0 : check_new_vacancies_return (check_new_vacancies envAllMiss 10 [] []) = () := rfl
  have r1 : check_new_vacancies_return (check_new_vacancies envOneHit 11 [] []) = () := rfl
  rw [e0, r0] at h0
  rw [e1, r1] at h1
  omega

end Seajobhub
